import Mathlib

/-!
Verification of the experiment-grid evaluation engine of the
Financial-Funds-Clustering repository.

The Python sources are shallowly embedded: data frames become lists of
rows of rationals, sklearn estimators become explicit parameter records
or parametric fitting functions, and Python exceptions become an
`Except` error kind.  Machine floats are modelled by `ℚ` (exact
arithmetic); the float value `-inf` that the evaluator uses as a
sentinel is modelled by `⊥` in `WithBot ℚ`.
-/

set_option linter.unusedVariables false

/-- A numeric data row (one observation). -/
abbrev Row : Type := List ℚ

/-- A numeric feature matrix, row-major (`np.ndarray` / numeric frame). -/
abbrev Mat : Type := List Row

/-- The kinds of Python exceptions relevant to the embedded code.
`configurationError`, `notBuiltError` and `shapeError` are the error
classes named by the specification; they are included so that claims
about them can be stated (no code in the repository defines or raises
them). -/
inductive PyError : Type
  | valueError
  | attributeError
  | notFittedError
  | typeError
  | configurationError
  | notBuiltError
  | shapeError
deriving DecidableEq, Repr

/-- Number of feature columns of a matrix (length of the first row). -/
def nColsOf (X : Mat) : ℕ := (X.headD []).length

/-- Column `j` of a matrix (missing entries read as `0`). -/
def colVals (X : Mat) (j : ℕ) : List ℚ := X.map (fun r => r.getD j 0)

/-- Insertion into a sorted list of rationals. -/
def insertSorted (x : ℚ) : List ℚ → List ℚ
  | [] => [x]
  | y :: ys => if x ≤ y then x :: y :: ys else y :: insertSorted x ys

/-- Sort a list of rationals ascending (`np.sort`). -/
def sortQ (l : List ℚ) : List ℚ := l.foldr insertSorted []

/-- Embedding of `np.percentile` with linear interpolation on an already sorted
sample: position `q * (n-1) / 100`, linearly interpolated between the
two neighbouring order statistics. -/
def percentileSorted (s : List ℚ) (q : ℚ) : ℚ :=
  match s with
  | [] => 0
  | _ =>
    let pos : ℚ := q * ((s.length : ℚ) - 1) / 100
    let i : ℕ := pos.floor.toNat
    let frac : ℚ := pos - (i : ℚ)
    let lo := s.getD i 0
    let hi := s.getD (i + 1) lo
    lo + frac * (hi - lo)

/-- Embedding of `sklearn.preprocessing.RobustScaler.fit` with default parameters:
per column, center = median (50th percentile), scale = IQR
(75th − 25th percentile), with a zero scale replaced by `1`
(`_handle_zeros_in_scale`). -/
def rsFit (X : Mat) : List (ℚ × ℚ) :=
  (List.range (nColsOf X)).map (fun j =>
    let c := sortQ (colVals X j)
    let center := percentileSorted c 50
    let iqr := percentileSorted c 75 - percentileSorted c 25
    (center, if iqr = 0 then 1 else iqr))

/-- Embedding of `RobustScaler.transform` on one row: `(x - center) / scale`
columnwise. -/
def rsTransformRow (ps : List (ℚ × ℚ)) (r : Row) : Row :=
  (r.zip ps).map (fun p => (p.1 - p.2.1) / p.2.2)

/-- Embedding of `RobustScaler.transform` on a matrix. -/
def rsTransform (ps : List (ℚ × ℚ)) (X : Mat) : Mat :=
  X.map (rsTransformRow ps)

/-- Embedding of `RobustScalerWrapper.fit_transform` (src/src/model/model.py):
fits the scaler on `train` and transforms `train`, `test` and `val`
with the parameters fitted on `train`. -/
def RobustScalerWrapper.fit_transform (train test val : Mat) :
    Mat × Mat × Mat :=
  let ps := rsFit train
  (rsTransform ps train, rsTransform ps test, rsTransform ps val)

/-- sklearn's `PCA.fit` validation: a requested component count must not
exceed `min(n_samples, n_features)` of the fitted matrix, otherwise
`fit` raises `ValueError`. -/
def pcaComponentsValid (nComponents : Option ℕ) (X : Mat) : Bool :=
  match nComponents with
  | none => true
  | some n => n ≤ min X.length (nColsOf X)

/-- Embedding of `PCAWrapper.fit_transform` (src/src/model/model.py): fits PCA on
`train` and projects `train`, `test` and `val` with the projection
fitted on `train`.  The numeric content of the fitted projection (an
SVD computed by sklearn in floating point) is abstracted by the
parameters `pcaFit` (fitting, called on the train matrix only) and
`pcaApply` (applying a fitted projection); the wrapper's dataflow and
sklearn's component-count validation are embedded exactly. -/
def PCAWrapper.fit_transform {P : Type} (nComponents : Option ℕ)
    (pcaFit : Mat → P) (pcaApply : P → Mat → Mat)
    (train test val : Mat) : Except PyError (Mat × Mat × Mat) :=
  if pcaComponentsValid nComponents train then
    let p := pcaFit train
    .ok (pcaApply p train, pcaApply p test, pcaApply p val)
  else
    .error .valueError

/-- C1: for both preprocessing wrappers the fitted transform parameters
depend only on the train partition: with the same `train`, changing
`test`/`val` leaves the transformed train matrix unchanged, and test and
val are transformed with exactly the transform fitted on train. -/
theorem preprocessing_params_depend_only_on_train
    (train test val test' val' : Mat) :
    ((RobustScalerWrapper.fit_transform train test val).1 =
        (RobustScalerWrapper.fit_transform train test' val').1
      ∧ (RobustScalerWrapper.fit_transform train test val).2.1 =
          rsTransform (rsFit train) test
      ∧ (RobustScalerWrapper.fit_transform train test val).2.2 =
          rsTransform (rsFit train) val)
    ∧ ∀ (P : Type) (nc : Option ℕ) (pcaFit : Mat → P)
        (pcaApply : P → Mat → Mat),
        ((PCAWrapper.fit_transform nc pcaFit pcaApply train test val).map
            (fun t => t.1) =
          (PCAWrapper.fit_transform nc pcaFit pcaApply train test' val').map
            (fun t => t.1))
        ∧ (PCAWrapper.fit_transform nc pcaFit pcaApply train test val =
            if pcaComponentsValid nc train then
              .ok (pcaApply (pcaFit train) train,
                   pcaApply (pcaFit train) test,
                   pcaApply (pcaFit train) val)
            else .error .valueError) := by
  refine ⟨⟨rfl, rfl, rfl⟩, fun P nc pcaFit pcaApply => ⟨?_, ?_⟩⟩
  · unfold PCAWrapper.fit_transform
    by_cases h : pcaComponentsValid nc train <;> simp [h, Except.map]
  · unfold PCAWrapper.fit_transform
    by_cases h : pcaComponentsValid nc train <;> simp [h]

/-- Minimum of a list of rationals (`np.min`; `0` on the empty list,
which the callers below never hit). -/
def listMinQ : List ℚ → ℚ
  | [] => 0
  | x :: xs => xs.foldl min x

/-- Squared Euclidean distance between two rows. -/
def sqEuclid (a b : Row) : ℚ :=
  ((a.zip b).map (fun p => (p.1 - p.2) * (p.1 - p.2))).sum

/-- Componentwise sum of two rows. -/
def addVec (a b : Row) : Row := List.zipWith (· + ·) a b

/-- Componentwise mean of a set of rows (`np.mean(rows, axis=0)`). -/
def meanVec (rows : Mat) : Row :=
  match rows with
  | [] => []
  | r :: rs => (rs.foldl addVec r).map (fun x => x / (((rs.length + 1 : ℕ) : ℚ)))

/-- Size of the cluster labelled `c` among the labelled points. -/
def clusterSize {α : Type} [DecidableEq α] (pts : List (Row × α)) (c : α) : ℕ :=
  (pts.filter (fun p => decide (p.2 = c))).length

/-- The rows assigned to cluster `c`. -/
def clusterRows {α : Type} [DecidableEq α] (pts : List (Row × α)) (c : α) : Mat :=
  (pts.filter (fun p => decide (p.2 = c))).map (fun p => p.1)

/-- sklearn's per-sample silhouette value for sample `i` with row `x` and
label `l`: `a` = mean distance to the other members of its own cluster,
`b` = least mean distance to another cluster, value `(b-a)/max(a,b)`;
singleton clusters and a zero denominator yield `0`
(`np.nan_to_num` of `0/0`).  The pairwise distance is the parameter `d`
(sklearn uses Euclidean distance, whose square roots are abstracted
here; no claim depends on the numeric distance values). -/
def silSample {α : Type} [DecidableEq α] (d : Row → Row → ℚ)
    (pts : List (Row × α)) (i : ℕ) (x : Row) (l : α) : ℚ :=
  let sz := clusterSize pts l
  if sz ≤ 1 then 0
  else
    let a := ((pts.enum.filter (fun q => decide (q.1 ≠ i) && decide (q.2.2 = l))).map
        (fun q => d x q.2.1)).sum / ((sz : ℚ) - 1)
    let others := (pts.map (fun p => p.2)).dedup.filter (fun c => decide (c ≠ l))
    let b := listMinQ (others.map (fun c =>
        ((clusterRows pts c).map (fun y => d x y)).sum / ((clusterSize pts c : ℕ) : ℚ)))
    let m := max a b
    if m = 0 then 0 else (b - a) / m

/-- Embedding of `sklearn.metrics.silhouette_score`: mean of the per-sample
silhouette values. -/
def silhouetteScore {α : Type} [DecidableEq α] (d : Row → Row → ℚ)
    (X : Mat) (labels : List α) : ℚ :=
  let pts := X.zip labels
  ((pts.enum.map (fun q => silSample d pts q.1 q.2.1 q.2.2)).sum) / ((pts.length : ℕ) : ℚ)

/-- Embedding of `sklearn.metrics.calinski_harabasz_score`: ratio of between-cluster
to within-cluster dispersion, `1.0` when the within-cluster dispersion
is zero.  All arithmetic is exact (squared Euclidean distances). -/
def calinskiScore {α : Type} [DecidableEq α] (X : Mat) (labels : List α) : ℚ :=
  let pts := X.zip labels
  let n := pts.length
  let cs := (pts.map (fun p => p.2)).dedup
  let k := cs.length
  let mu := meanVec (pts.map (fun p => p.1))
  let extra := (cs.map (fun c =>
      ((clusterRows pts c).length : ℚ) * sqEuclid (meanVec (clusterRows pts c)) mu)).sum
  let intra := (cs.map (fun c =>
      ((clusterRows pts c).map (fun x => sqEuclid x (meanVec (clusterRows pts c)))).sum)).sum
  if intra = 0 then 1 else (extra * ((n : ℚ) - (k : ℚ))) / (intra * ((k : ℚ) - 1))

/-- A Python value returned by the evaluator: either a bare float
(`-np.inf` is `⊥`) or a dict `{"silhouette": s, "calinski": c}`. -/
inductive PyValue : Type
  | num : WithBot ℚ → PyValue
  | dict : WithBot ℚ → WithBot ℚ → PyValue
deriving DecidableEq

/-- Embedding of `evaluate_clusters` (src/src/models/cluster_search.py): returns the
bare scalar `-np.inf` when there are at most one distinct label,
otherwise the dict of the two sklearn scores.  sklearn's
`check_number_of_labels` raises `ValueError` unless
`1 < n_labels < n_samples`, which the second branch embeds. -/
def evaluate_clusters {α : Type} [DecidableEq α] (d : Row → Row → ℚ)
    (X : Mat) (labels : List α) : Except PyError PyValue :=
  if labels.dedup.length ≤ 1 then .ok (.num ⊥)
  else if labels.dedup.length < X.length then
    .ok (.dict ((silhouetteScore d X labels : ℚ) : WithBot ℚ)
               ((calinskiScore X labels : ℚ) : WithBot ℚ))
  else .error .valueError

/-- C2 counterexample: on a degenerate labelling `evaluate_clusters`
returns the bare scalar `-inf`, which is not a mapping with both
metrics; and on a 2-row input with 2 distinct labels it raises
`ValueError` (sklearn requires `n_labels < n_samples`) instead of
returning finite metric values. -/
theorem evaluate_clusters_claim_counterexample :
    evaluate_clusters sqEuclid [[0], [1], [2]] ([0, 0, 0] : List ℕ) =
        .ok (.num ⊥)
    ∧ (∀ s c : WithBot ℚ, PyValue.num ⊥ ≠ PyValue.dict s c)
    ∧ evaluate_clusters sqEuclid [[0], [1]] ([0, 1] : List ℕ) =
        .error .valueError := by
  refine ⟨rfl, fun s c h => PyValue.noConfusion h, rfl⟩

/-- C2 amended: `evaluate_clusters` returns the scalar sentinel
`-inf` (not a mapping), without raising, when there is at most one
distinct label; and returns a mapping with finite values for both
metrics whenever there are at least two distinct labels and strictly
fewer distinct labels than rows. -/
theorem evaluate_clusters_branch_behavior {α : Type} [DecidableEq α]
    (d : Row → Row → ℚ) (X : Mat) (labels : List α) :
    (labels.dedup.length ≤ 1 →
      evaluate_clusters d X labels = .ok (.num ⊥))
    ∧ (2 ≤ labels.dedup.length → labels.dedup.length < X.length →
        evaluate_clusters d X labels =
          .ok (.dict ((silhouetteScore d X labels : ℚ) : WithBot ℚ)
                     ((calinskiScore X labels : ℚ) : WithBot ℚ))
        ∧ ((silhouetteScore d X labels : ℚ) : WithBot ℚ) ≠ ⊥
        ∧ ((calinskiScore X labels : ℚ) : WithBot ℚ) ≠ ⊥) := by
  constructor
  · intro h
    simp [evaluate_clusters, h]
  · intro h2 hlt
    have h1 : ¬ labels.dedup.length ≤ 1 := by omega
    refine ⟨by simp [evaluate_clusters, h1, hlt], ?_, ?_⟩ <;>
      exact WithBot.coe_ne_bot

/-- Witness for C2's amended theorem at concrete inputs. -/
theorem evaluate_clusters_branch_behavior_witness :
    evaluate_clusters sqEuclid [[0], [7], [9]] ([1, 1, 1] : List ℕ) =
        .ok (.num ⊥)
    ∧ evaluate_clusters sqEuclid [[0], [7], [9]] ([0, 1, 1] : List ℕ) =
        .ok (.dict ((silhouetteScore sqEuclid [[0], [7], [9]]
                        ([0, 1, 1] : List ℕ) : ℚ) : WithBot ℚ)
                   ((calinskiScore [[0], [7], [9]]
                        ([0, 1, 1] : List ℕ) : ℚ) : WithBot ℚ)) := by
  refine ⟨(evaluate_clusters_branch_behavior sqEuclid [[0], [7], [9]]
      ([1, 1, 1] : List ℕ)).1 (by decide), ?_⟩
  exact ((evaluate_clusters_branch_behavior sqEuclid [[0], [7], [9]]
      ([0, 1, 1] : List ℕ)).2 (by decide) (by decide)).1

/-- A Python dict with string keys and integer values (the
hyperparameter dicts of the trainers).  Keys are unique; `dictSet`
replaces the first occurrence in place, matching dict assignment. -/
def dictSet : List (String × ℤ) → String → ℤ → List (String × ℤ)
  | [], k, v => [(k, v)]
  | p :: ps, k, v => if p.1 == k then (k, v) :: ps else p :: dictSet ps k v

/-- Python `dict.pop(k)` restricted to its removal effect. -/
def dictPop : List (String × ℤ) → String → List (String × ℤ)
  | [], _ => []
  | p :: ps, k => if p.1 == k then dictPop ps k else p :: dictPop ps k

/-- Python `dict[k]` as an `Option`. -/
def dictGet : List (String × ℤ) → String → Option ℤ
  | [], _ => none
  | p :: ps, k => if p.1 == k then some p.2 else dictGet ps k

/-- Python `dict.update(other)`. -/
def dictUpdate (d other : List (String × ℤ)) : List (String × ℤ) :=
  other.foldl (fun acc p => dictSet acc p.1 p.2) d

/-- Embedding of `sklearn.mixture.GaussianMixture`, abstracted to what the claims
need: the constructor keyword dict, and, once fitted, the component
count together with a per-component scoring function (the EM-fitted
weighted log-likelihood, whose numeric content is supplied by the `em`
parameter of `GMMTrainer.fit`).  `predict` is the argmax of the
per-component scores, exactly as sklearn assigns each point to its most
likely component. -/
structure GaussianMixture where
  params : List (String × ℤ)
  fitted : Option (ℕ × (ℕ → Row → ℚ))

/-- The estimator's component count (sklearn default `1`). -/
def gmNComponents (g : GaussianMixture) : ℤ :=
  (dictGet g.params "n_components").getD 1

/-- First index of the maximum of a score list (`np.argmax`),
accumulator form. -/
def argmaxGo (best : ℕ × ℚ) (i : ℕ) : List ℚ → ℕ
  | [] => best.1
  | x :: xs => if best.2 < x then argmaxGo (i, x) (i + 1) xs else argmaxGo best (i + 1) xs

/-- First index of the maximum of a score list (`np.argmax`). -/
def argmaxIdx : List ℚ → ℕ
  | [] => 0
  | x :: xs => argmaxGo (0, x) 1 xs

/-- Embedding of `GaussianMixture.predict`: `NotFittedError` before `fit`
(sklearn's `check_is_fitted`); after `fit`, one label per row, the
argmax over the fitted components. -/
def GaussianMixture.predict (g : GaussianMixture) (X : Mat) :
    Except PyError (List ℕ) :=
  match g.fitted with
  | none => .error .notFittedError
  | some (k, score) =>
      .ok (X.map (fun row => argmaxIdx ((List.range k).map (fun c => score c row))))

/-- Embedding of `GMMTrainer` (src/src/models/gmm.py): the stored hyperparameter
dict and the underlying estimator, `None` until `build`. -/
structure GMMTrainer where
  params : List (String × ℤ)
  model : Option GaussianMixture

/-- Embedding of `GMMTrainer.__init__` (src/src/models/gmm.py): defaults
`n_components=2, random_state=0, n_init=1` updated with the keyword
arguments; `self.model = None`. -/
def GMMTrainer.new (kwargs : List (String × ℤ)) : GMMTrainer :=
  { params := dictUpdate
      [("n_components", 2), ("random_state", 0), ("n_init", 1)] kwargs,
    model := none }

/-- Embedding of `GMMTrainer.set_params`: merges the keyword arguments into the
stored hyperparameters; no validation, the model is untouched. -/
def GMMTrainer.set_params (t : GMMTrainer) (kwargs : List (String × ℤ)) :
    GMMTrainer :=
  { t with params := dictUpdate t.params kwargs }

/-- Embedding of `GMMTrainer.build`: renames the key `n_clusters` to the
family-native `n_components` (`self.params['n_components'] =
self.params.pop('n_clusters')`) and instantiates the estimator from the
resulting params, unfitted. -/
def GMMTrainer.build (t : GMMTrainer) : GMMTrainer :=
  let ps := match dictGet t.params "n_clusters" with
    | some v => dictSet (dictPop t.params "n_clusters") "n_components" v
    | none => t.params
  { params := ps, model := some { params := ps, fitted := none } }

/-- Embedding of `GMMTrainer.fit`, that is `self.model.fit(X)`.  With `self.model = None`
this is Python's `AttributeError` on `NoneType`; otherwise sklearn
validates `n_components ≥ 1` (`ValueError`) and fits, the fitted
component scores being produced by the `em` parameter from the
component count and the training matrix only. -/
def GMMTrainer.fit (em : ℕ → Mat → (ℕ → Row → ℚ)) (t : GMMTrainer)
    (X : Mat) : Except PyError GMMTrainer :=
  match t.model with
  | none => .error .attributeError
  | some g =>
      let n := gmNComponents g
      if n < 1 then .error .valueError
      else .ok { t with
        model := some { g with fitted := some (n.toNat, em n.toNat X) } }

/-- Embedding of `GMMTrainer.predict`, that is `self.model.predict(X)`; `AttributeError` when
`self.model = None`. -/
def GMMTrainer.predict (t : GMMTrainer) (X : Mat) :
    Except PyError (List ℕ) :=
  match t.model with
  | none => .error .attributeError
  | some g => g.predict X

/-- The cluster count currently requested of a built trainer. -/
def GMMTrainer.requestedComponents (t : GMMTrainer) : ℤ :=
  match t.model with
  | some g => gmNComponents g
  | none => 0

theorem dictGet_dictSet_same (d : List (String × ℤ)) (k : String) (v : ℤ) :
    dictGet (dictSet d k v) k = some v := by
  induction d with
  | nil => simp [dictSet, dictGet]
  | cons p ps ih =>
    by_cases h : p.1 = k
    · simp [dictSet, dictGet, h]
    · simp [dictSet, dictGet, h, ih, beq_iff_eq]

theorem dictGet_dictSet_ne (d : List (String × ℤ)) (k k' : String) (v : ℤ)
    (h : k' ≠ k) : dictGet (dictSet d k v) k' = dictGet d k' := by
  induction d with
  | nil => simp [dictSet, dictGet, beq_iff_eq, Ne.symm h]
  | cons p ps ih =>
    by_cases hp : p.1 = k
    · simp [dictSet, dictGet, hp, beq_iff_eq, h, Ne.symm h]
    · simp [dictSet, dictGet, hp, beq_iff_eq, ih]

theorem dictGet_dictPop_same (d : List (String × ℤ)) (k : String) :
    dictGet (dictPop d k) k = none := by
  induction d with
  | nil => simp [dictPop, dictGet]
  | cons p ps ih =>
    by_cases h : p.1 = k
    · simp [dictPop, h, ih, beq_iff_eq]
    · simp [dictPop, dictGet, h, ih, beq_iff_eq]

/-- C5 counterexample: with a freshly constructed trainer (built
never called, `self.model = None`), `fit` fails with `AttributeError`
(`'NoneType' object has no attribute 'fit'`), not with the
`NotBuiltError` the claim names — no such class exists in the
repository. -/
theorem trainer_not_built_attribute_error :
    GMMTrainer.fit (fun _ _ => fun _ _ => 0) (GMMTrainer.new []) [[1]] =
        .error .attributeError
    ∧ GMMTrainer.predict (GMMTrainer.new []) [[1]] =
        .error .attributeError
    ∧ PyError.attributeError ≠ PyError.notBuiltError :=
  ⟨rfl, rfl, by decide⟩

/-- C5 amended: calling `fit` or `predict` before `build` fails with
`AttributeError` (the model attribute is `None`), and calling `predict`
after `build` but before `fit` fails with `NotFittedError`. -/
theorem trainer_call_order_errors (em : ℕ → Mat → (ℕ → Row → ℚ))
    (kwargs : List (String × ℤ)) (X : Mat) :
    GMMTrainer.fit em (GMMTrainer.new kwargs) X = .error .attributeError
    ∧ GMMTrainer.predict (GMMTrainer.new kwargs) X = .error .attributeError
    ∧ GMMTrainer.predict ((GMMTrainer.new kwargs).build) X =
        .error .notFittedError :=
  ⟨rfl, rfl, rfl⟩

/-- C6: `build` removes the unified key `n_clusters` from the stored
hyperparameters, stores its value under the family-native key
`n_components`, and instantiates the estimator from exactly those
normalized params, so the requested cluster count is preserved. -/
theorem gmm_build_normalizes_cluster_key (t : GMMTrainer) (k : ℤ)
    (h : dictGet t.params "n_clusters" = some k) :
    dictGet (GMMTrainer.build t).params "n_clusters" = none
    ∧ dictGet (GMMTrainer.build t).params "n_components" = some k
    ∧ ∃ g, (GMMTrainer.build t).model = some g
        ∧ g.params = (GMMTrainer.build t).params
        ∧ gmNComponents g = k := by
  unfold GMMTrainer.build
  rw [h]
  refine ⟨?_, ?_, ⟨_, rfl, rfl, ?_⟩⟩
  · rw [dictGet_dictSet_ne _ _ _ _ (by decide), dictGet_dictPop_same]
  · exact dictGet_dictSet_same _ _ _
  · unfold gmNComponents
    rw [dictGet_dictSet_same]
    rfl

/-- Witness for C6 at a concrete trainer requesting 5 clusters. -/
theorem gmm_build_normalizes_cluster_key_witness :
    dictGet (GMMTrainer.build (GMMTrainer.new [("n_clusters", 5)])).params
        "n_clusters" = none
    ∧ dictGet (GMMTrainer.build (GMMTrainer.new [("n_clusters", 5)])).params
        "n_components" = some 5
    ∧ ∃ g, (GMMTrainer.build (GMMTrainer.new [("n_clusters", 5)])).model = some g
        ∧ g.params = (GMMTrainer.build (GMMTrainer.new [("n_clusters", 5)])).params
        ∧ gmNComponents g = 5 :=
  gmm_build_normalizes_cluster_key (GMMTrainer.new [("n_clusters", 5)]) 5 rfl

theorem argmaxGo_lt (xs : List ℚ) : ∀ (best : ℕ × ℚ) (i : ℕ),
    best.1 < i → argmaxGo best i xs < i + xs.length := by
  induction xs with
  | nil => intro best i h; simpa [argmaxGo] using h
  | cons x xs ih =>
    intro best i h
    unfold argmaxGo
    by_cases hx : best.2 < x
    · rw [if_pos hx]
      have := ih (i, x) (i + 1) (by omega)
      simp only [List.length_cons]
      omega
    · rw [if_neg hx]
      have := ih best (i + 1) (by omega)
      simp only [List.length_cons]
      omega

theorem argmaxIdx_lt (l : List ℚ) (h : l ≠ []) : argmaxIdx l < l.length := by
  cases l with
  | nil => exact absurd rfl h
  | cons x xs =>
    have := argmaxGo_lt xs (0, x) 1 (by omega)
    simpa [argmaxIdx, Nat.add_comm] using this

/-- C9: after a successful `fit`, `predict` returns exactly one integer
label per row of `X`, each label strictly below the trainer's requested
cluster count. -/
theorem gmm_predict_label_range (em : ℕ → Mat → (ℕ → Row → ℚ))
    (t t' : GMMTrainer) (X0 X : Mat) (labels : List ℕ)
    (hfit : GMMTrainer.fit em t X0 = .ok t')
    (hpred : GMMTrainer.predict t' X = .ok labels) :
    labels.length = X.length ∧
      ∀ l ∈ labels, (l : ℤ) < t.requestedComponents := by
  obtain ⟨tp, tm⟩ := t
  cases tm with
  | none => exact absurd hfit (by simp [GMMTrainer.fit])
  | some g =>
    simp only [GMMTrainer.fit] at hfit
    by_cases hn : gmNComponents g < 1
    · rw [if_pos hn] at hfit; exact absurd hfit (by simp)
    · rw [if_neg hn] at hfit
      have ht' : t' =
          { params := tp
            model := some
              { params := g.params
                fitted := some ((gmNComponents g).toNat,
                  em (gmNComponents g).toNat X0) } } := by
        cases hfit; rfl
      subst ht'
      simp only [GMMTrainer.predict, GaussianMixture.predict,
        Except.ok.injEq] at hpred
      subst hpred
      refine ⟨by simp, ?_⟩
      intro l hl
      obtain ⟨row, hrow, hval⟩ := List.mem_map.mp hl
      have hne : ((List.range (gmNComponents g).toNat).map
          (fun c => em (gmNComponents g).toNat X0 c row)) ≠ [] := by
        intro hcon
        have := congrArg List.length hcon
        simp only [List.length_map, List.length_range, List.length_nil] at this
        omega
      have hlt := argmaxIdx_lt _ hne
      simp only [List.length_map, List.length_range] at hlt
      rw [hval] at hlt
      simp only [GMMTrainer.requestedComponents]
      omega

/-- Witness for C9: a trainer built for 2 clusters, fitted and asked to
predict two rows. -/
theorem gmm_predict_label_range_witness :
    ∃ t' labels,
      GMMTrainer.fit (fun _ _ => fun c _ => (c : ℚ))
          ((GMMTrainer.new [("n_clusters", 2)]).build) [[0], [1]] = .ok t'
      ∧ GMMTrainer.predict t' [[5], [6]] = .ok labels
      ∧ labels.length = ([[5], [6]] : Mat).length
      ∧ ∀ l ∈ labels, (l : ℤ) <
          ((GMMTrainer.new [("n_clusters", 2)]).build).requestedComponents := by
  exact ⟨_, _, rfl, rfl,
    gmm_predict_label_range (fun _ _ => fun c _ => (c : ℚ))
      ((GMMTrainer.new [("n_clusters", 2)]).build) _ [[0], [1]] [[5], [6]] _
      rfl rfl⟩

/-- C8 counterexample: requesting 3 PCA components on a train matrix
with 2 feature columns fails with sklearn's `ValueError`, not with the
`ConfigurationError` the claim names — no such class exists in the
repository. -/
theorem pca_excess_components_cex :
    PCAWrapper.fit_transform (P := Unit) (some 3) (fun _ => ()) (fun _ X => X)
        [[1, 1], [2, 2]] [] [] = .error .valueError
    ∧ PyError.valueError ≠ PyError.configurationError :=
  ⟨rfl, by decide⟩

/-- C8 amended: whenever the requested component count exceeds the
number of feature columns of the train matrix, `PCAWrapper.fit_transform`
fails with the `ValueError` raised by sklearn's `PCA.fit` validation. -/
theorem pca_excess_components_value_error {P : Type} (n : ℕ)
    (pcaFit : Mat → P) (pcaApply : P → Mat → Mat) (train test val : Mat)
    (h : nColsOf train < n) :
    PCAWrapper.fit_transform (some n) pcaFit pcaApply train test val =
      .error .valueError := by
  unfold PCAWrapper.fit_transform
  have hv : pcaComponentsValid (some n) train = false := by
    simp only [pcaComponentsValid, decide_eq_false_iff_not]
    omega
  rw [hv]
  simp

/-- Witness for C8's amended theorem at a concrete 2-column train
matrix and 3 requested components. -/
theorem pca_excess_components_value_error_witness :
    nColsOf [[1, 1], [2, 2]] < 3
    ∧ PCAWrapper.fit_transform (P := Unit) (some 3) (fun _ => ())
        (fun _ X => X) [[1, 1], [2, 2]] [[5, 5]] [[6, 6]] =
        .error .valueError :=
  ⟨by decide, pca_excess_components_value_error 3 _ _ _ _ _ (by decide)⟩

/-- A pandas DataFrame restricted to what the claims need: named
columns over rational values, row-major. -/
structure DF where
  cols : List String
  data : Mat
deriving DecidableEq, Inhabited, Repr

/-- The Python object heap for the dataframes handled by the grid
orchestrator: indices are references, `df.copy()` allocates a fresh
cell, in-place column assignment writes a cell. -/
abbrev Heap : Type := List DF

/-- Dereference a heap cell. -/
def heapGet (h : Heap) (i : ℕ) : DF := h.getD i default

/-- Overwrite a heap cell (in-place mutation of the object it holds). -/
def heapSet (h : Heap) (i : ℕ) (v : DF) : Heap := h.set i v

/-- Python `df.copy()`: allocate a fresh cell holding the value `v`. -/
def heapAlloc (h : Heap) (v : DF) : Heap × ℕ := (h ++ [v], h.length)

/-- pandas `df[name] = vals`: replaces the column in place when present,
else appends it on the right. -/
def setCol (df : DF) (name : String) (vals : List ℚ) : DF :=
  match df.cols.findIdx? (fun c => c == name) with
  | some j =>
      { cols := df.cols
        data := (df.data.zip vals).map (fun p => p.1.set j p.2) }
  | none =>
      { cols := df.cols ++ [name]
        data := (df.data.zip vals).map (fun p => p.1 ++ [p.2]) }

/-- pandas `df['pred']`: the values of the `pred` column. -/
def predCol (df : DF) : List ℚ :=
  match df.cols.findIdx? (fun c => c == "pred") with
  | some j => df.data.map (fun r => r.getD j 0)
  | none => []

/-- One entry of `pre_processing_flags`: Python `None` (no
preprocessing; printed as the name `None`) or a named preprocessing
function over the three partitions. -/
structure PreFun where
  name : String
  f : Mat → Mat → Mat → Mat × Mat × Mat

/-- A preprocessing flag as passed in `pre_processing_flags`. -/
abbrev Preproc : Type := Option PreFun

/-- Python `str(type_process.__name__) if type_process else "None"`. -/
def preName : Preproc → String
  | none => "None"
  | some pf => pf.name

/-- Apply a preprocessing flag to the three partitions. -/
def applyPre : Preproc → Mat → Mat → Mat → Mat × Mat × Mat
  | none, t, te, v => (t, te, v)
  | some pf, t, te, v => pf.f t te v

/-- Modelled from the spec: `run_training` of
src/src/pipelines/train_pipeline.py is imported by the experiment
pipeline but absent from the repository snapshot.  Per spec section 4.4
it applies the preprocessing strategy (fit on train only), builds and
fits the model on the transformed train partition, predicts labels for
the three transformed partitions, attaches the labels to the frames it
was given as a `pred` column (the orchestrator passes copies precisely
because `run_training` adds this column), and returns the labeled
frames together with the transformed feature matrices.  The model
behaviour (the set_params/build/fit/predict composite) is the parameter
`pl`: model name, cluster count, fitting matrix, query matrix to
labels. -/
def run_training (pl : String → ℕ → Mat → Mat → List ℕ) (m : String)
    (k : ℕ) (p : Preproc) (dfT dfTe dfV : DF) :
    (DF × DF × DF) × (Mat × Mat × Mat) :=
  let t3 := applyPre p dfT.data dfTe.data dfV.data
  let labT := pl m k t3.1 t3.1
  let labTe := pl m k t3.1 t3.2.1
  let labV := pl m k t3.1 t3.2.2
  ((setCol dfT "pred" (labT.map (fun l => (l : ℚ))),
    setCol dfTe "pred" (labTe.map (fun l => (l : ℚ))),
    setCol dfV "pred" (labV.map (fun l => (l : ℚ)))),
   t3)

/-- Modelled from the spec: `evaluate` of
src/src/pipelines/train_pipeline.py is absent from the repository
snapshot.  Per spec section 4.3 it computes the silhouette and
Calinski-Harabasz metrics of the transformed features under the
frame's predicted labels, both metrics being negative infinity when the
label set has cardinality ≤ 1, and yields one result row per partition
(the per-cluster look-feature means are reported alongside and are not
modelled; the silhouette pairwise distance is the parameter `d`). -/
def evaluate (d : Row → Row → ℚ) (dfRes : DF) (features : Mat) : PyValue :=
  let labels := predCol dfRes
  if labels.dedup.length ≤ 1 then .dict ⊥ ⊥
  else .dict ((silhouetteScore d features labels : ℚ) : WithBot ℚ)
             ((calinskiScore features labels : ℚ) : WithBot ℚ)

/-- One row of the aggregated result table: the evaluation metrics
tagged with dataset name, model name, cluster count and preprocessing
name. -/
structure ResultRow where
  dataset : String
  model : String
  nClusters : ℕ
  preprocessing : String
  metrics : PyValue
deriving DecidableEq

/-- The tag columns of a result row. -/
def tagOf (r : ResultRow) : String × String × ℕ × String :=
  (r.dataset, r.model, r.nClusters, r.preprocessing)

/-- The three result rows of one grid cell as a function of the cell's
parameters and the values of the three input partitions. -/
def cellRows (d : Row → Row → ℚ) (pl : String → ℕ → Mat → Mat → List ℕ)
    (m : String) (k : ℕ) (p : Preproc) (dfT dfTe dfV : DF) :
    List ResultRow :=
  let r := run_training pl m k p dfT dfTe dfV
  [{ dataset := "train"
     model := m
     nClusters := k
     preprocessing := preName p
     metrics := evaluate d r.1.1 r.2.1 },
   { dataset := "test"
     model := m
     nClusters := k
     preprocessing := preName p
     metrics := evaluate d r.1.2.1 r.2.2.1 },
   { dataset := "validation"
     model := m
     nClusters := k
     preprocessing := preName p
     metrics := evaluate d r.1.2.2 r.2.2.2 }]

/-- One grid cell of `run_all_experiments`: `df.copy()` of the three
input frames into fresh heap cells, (spec-modelled) training on the
copies — whose in-place `pred` assignment writes the copy cells, never
the input cells — and evaluation of the three labeled partitions. -/
def runCell (d : Row → Row → ℚ) (pl : String → ℕ → Mat → Mat → List ℕ)
    (rT rTe rV : ℕ) (m : String) (k : ℕ) (p : Preproc) (h : Heap) :
    Heap × List ResultRow :=
  let dfT := heapGet h rT
  let dfTe := heapGet h rTe
  let dfV := heapGet h rV
  let a1 := heapAlloc h dfT
  let a2 := heapAlloc a1.1 dfTe
  let a3 := heapAlloc a2.1 dfV
  let r := run_training pl m k p dfT dfTe dfV
  let h4 := heapSet (heapSet (heapSet a3.1 a1.2 r.1.1) a2.2 r.1.2.1) a3.2 r.1.2.2
  (h4, cellRows d pl m k p dfT dfTe dfV)

/-- Inner loop of `run_all_experiments`: over preprocessing flags. -/
def runPres (d : Row → Row → ℚ) (pl : String → ℕ → Mat → Mat → List ℕ)
    (rT rTe rV : ℕ) (m : String) (k : ℕ) :
    Heap → List Preproc → Heap × List ResultRow
  | h, [] => (h, [])
  | h, p :: ps =>
    let c := runCell d pl rT rTe rV m k p h
    let rest := runPres d pl rT rTe rV m k c.1 ps
    (rest.1, c.2 ++ rest.2)

/-- Middle loop of `run_all_experiments`: over cluster counts. -/
def runClusters (d : Row → Row → ℚ) (pl : String → ℕ → Mat → Mat → List ℕ)
    (rT rTe rV : ℕ) (m : String) (pres : List Preproc) :
    Heap → List ℕ → Heap × List ResultRow
  | h, [] => (h, [])
  | h, k :: ks =>
    let c := runPres d pl rT rTe rV m k h pres
    let rest := runClusters d pl rT rTe rV m pres c.1 ks
    (rest.1, c.2 ++ rest.2)

/-- Outer loop of `run_all_experiments`: over model classes. -/
def runModels (d : Row → Row → ℚ) (pl : String → ℕ → Mat → Mat → List ℕ)
    (rT rTe rV : ℕ) (clusters : List ℕ) (pres : List Preproc) :
    Heap → List String → Heap × List ResultRow
  | h, [] => (h, [])
  | h, m :: ms =>
    let c := runClusters d pl rT rTe rV m pres h clusters
    let rest := runModels d pl rT rTe rV clusters pres c.1 ms
    (rest.1, c.2 ++ rest.2)

/-- Embedding of `run_all_experiments` (src/src/pipelines/experiment_pipeline.py):
triple loop — models outermost, then cluster counts, then preprocessing
flags — with fresh copies of the three input frames per cell, the rows
of each cell tagged with dataset, model, cluster count and
preprocessing name, and a final `pd.concat(all_results)`, which raises
`ValueError` when the accumulated list is empty.  No validation of the
cluster counts (or anything else) is performed. -/
def run_all_experiments (d : Row → Row → ℚ)
    (pl : String → ℕ → Mat → Mat → List ℕ) (h : Heap) (rT rTe rV : ℕ)
    (models : List String) (clusters : List ℕ) (pres : List Preproc) :
    Heap × Except PyError (List ResultRow) :=
  let r := runModels d pl rT rTe rV clusters pres h models
  (r.1, if r.2.isEmpty then .error .valueError else .ok r.2)

theorem heapGet_heapSet_ne (h : Heap) (i j : ℕ) (v : DF) (hij : i ≠ j) :
    heapGet (heapSet h j v) i = heapGet h i := by
  simp [heapGet, heapSet, List.getD_eq_getElem?_getD,
    List.getElem?_set_ne (Ne.symm hij)]

theorem heapGet_append_lt (h : Heap) (l : List DF) (i : ℕ)
    (hi : i < h.length) : heapGet (h ++ l) i = heapGet h i :=
  List.getD_append h l default i hi

theorem runCell_heap_length (d : Row → Row → ℚ)
    (pl : String → ℕ → Mat → Mat → List ℕ) (rT rTe rV : ℕ) (m : String)
    (k : ℕ) (p : Preproc) (h : Heap) :
    (runCell d pl rT rTe rV m k p h).1.length = h.length + 3 := by
  simp [runCell, heapAlloc, heapSet, List.length_set, List.length_append]

theorem runCell_preserves (d : Row → Row → ℚ)
    (pl : String → ℕ → Mat → Mat → List ℕ) (rT rTe rV : ℕ) (m : String)
    (k : ℕ) (p : Preproc) (h : Heap) (i : ℕ) (hi : i < h.length) :
    heapGet ((runCell d pl rT rTe rV m k p h).1) i = heapGet h i := by
  unfold runCell
  simp only [heapAlloc]
  rw [heapGet_heapSet_ne _ _ _ _ (by simp; omega),
    heapGet_heapSet_ne _ _ _ _ (by simp; omega),
    heapGet_heapSet_ne _ _ _ _ (by omega),
    heapGet_append_lt _ _ _ (by simp; omega),
    heapGet_append_lt _ _ _ (by simp; omega),
    heapGet_append_lt _ _ _ hi]

theorem runPres_preserves (d : Row → Row → ℚ)
    (pl : String → ℕ → Mat → Mat → List ℕ) (rT rTe rV : ℕ) (m : String)
    (k : ℕ) : ∀ (ps : List Preproc) (h : Heap),
    h.length ≤ (runPres d pl rT rTe rV m k h ps).1.length ∧
      ∀ i < h.length,
        heapGet ((runPres d pl rT rTe rV m k h ps).1) i = heapGet h i := by
  intro ps
  induction ps with
  | nil => intro h; exact ⟨le_refl _, fun i hi => rfl⟩
  | cons p ps ih =>
    intro h
    simp only [runPres]
    obtain ⟨ihlen, ihpres⟩ := ih (runCell d pl rT rTe rV m k p h).1
    have hclen := runCell_heap_length d pl rT rTe rV m k p h
    refine ⟨by omega, fun i hi => ?_⟩
    rw [ihpres i (by omega), runCell_preserves d pl rT rTe rV m k p h i hi]

theorem runClusters_preserves (d : Row → Row → ℚ)
    (pl : String → ℕ → Mat → Mat → List ℕ) (rT rTe rV : ℕ) (m : String)
    (pres : List Preproc) : ∀ (ks : List ℕ) (h : Heap),
    h.length ≤ (runClusters d pl rT rTe rV m pres h ks).1.length ∧
      ∀ i < h.length,
        heapGet ((runClusters d pl rT rTe rV m pres h ks).1) i =
          heapGet h i := by
  intro ks
  induction ks with
  | nil => intro h; exact ⟨le_refl _, fun i hi => rfl⟩
  | cons k ks ih =>
    intro h
    simp only [runClusters]
    obtain ⟨ihlen, ihpres⟩ := ih (runPres d pl rT rTe rV m k h pres).1
    obtain ⟨plen, ppres⟩ := runPres_preserves d pl rT rTe rV m k pres h
    refine ⟨by omega, fun i hi => ?_⟩
    rw [ihpres i (by omega), ppres i hi]

theorem runModels_preserves (d : Row → Row → ℚ)
    (pl : String → ℕ → Mat → Mat → List ℕ) (rT rTe rV : ℕ)
    (clusters : List ℕ) (pres : List Preproc) :
    ∀ (ms : List String) (h : Heap),
    h.length ≤ (runModels d pl rT rTe rV clusters pres h ms).1.length ∧
      ∀ i < h.length,
        heapGet ((runModels d pl rT rTe rV clusters pres h ms).1) i =
          heapGet h i := by
  intro ms
  induction ms with
  | nil => intro h; exact ⟨le_refl _, fun i hi => rfl⟩
  | cons m ms ih =>
    intro h
    simp only [runModels]
    obtain ⟨ihlen, ihpres⟩ :=
      ih (runClusters d pl rT rTe rV m pres h clusters).1
    obtain ⟨clen, cpres⟩ :=
      runClusters_preserves d pl rT rTe rV m pres clusters h
    refine ⟨by omega, fun i hi => ?_⟩
    rw [ihpres i (by omega), cpres i hi]

/-- Concatenation of the images of a list (the loop-append accumulation
pattern of the orchestrator). -/
def concatMap {α β : Type} (f : α → List β) : List α → List β
  | [] => []
  | a :: as => f a ++ concatMap f as

theorem concatMap_length_const {α β : Type} (f : α → List β) (n : ℕ) :
    ∀ l : List α, (∀ a ∈ l, (f a).length = n) →
      (concatMap f l).length = l.length * n := by
  intro l
  induction l with
  | nil => intro _; simp [concatMap]
  | cons a as ih =>
    intro hl
    simp only [concatMap, List.length_append, List.length_cons,
      ih (fun b hb => hl b (.tail _ hb)), hl a (.head _)]
    ring

theorem map_concatMap {α β γ : Type} (f : α → List β) (g : β → γ) :
    ∀ l : List α, (concatMap f l).map g = concatMap (fun a => (f a).map g) l := by
  intro l
  induction l with
  | nil => rfl
  | cons a as ih => simp [concatMap, ih]

theorem runPres_rows (d : Row → Row → ℚ)
    (pl : String → ℕ → Mat → Mat → List ℕ) (rT rTe rV : ℕ) (m : String)
    (k : ℕ) : ∀ (ps : List Preproc) (h : Heap),
    rT < h.length → rTe < h.length → rV < h.length →
    (runPres d pl rT rTe rV m k h ps).2 =
      concatMap (fun p =>
        cellRows d pl m k p (heapGet h rT) (heapGet h rTe) (heapGet h rV)) ps := by
  intro ps
  induction ps with
  | nil => intro h _ _ _; rfl
  | cons p ps ih =>
    intro h hT hTe hV
    simp only [runPres, concatMap]
    have hclen := runCell_heap_length d pl rT rTe rV m k p h
    rw [ih (runCell d pl rT rTe rV m k p h).1 (by omega) (by omega) (by omega)]
    simp only [runCell_preserves d pl rT rTe rV m k p h rT hT,
      runCell_preserves d pl rT rTe rV m k p h rTe hTe,
      runCell_preserves d pl rT rTe rV m k p h rV hV]
    rfl

theorem runClusters_rows (d : Row → Row → ℚ)
    (pl : String → ℕ → Mat → Mat → List ℕ) (rT rTe rV : ℕ) (m : String)
    (pres : List Preproc) : ∀ (ks : List ℕ) (h : Heap),
    rT < h.length → rTe < h.length → rV < h.length →
    (runClusters d pl rT rTe rV m pres h ks).2 =
      concatMap (fun k => concatMap (fun p =>
        cellRows d pl m k p (heapGet h rT) (heapGet h rTe) (heapGet h rV))
          pres) ks := by
  intro ks
  induction ks with
  | nil => intro h _ _ _; rfl
  | cons k ks ih =>
    intro h hT hTe hV
    simp only [runClusters, concatMap]
    obtain ⟨plen, ppres⟩ := runPres_preserves d pl rT rTe rV m k pres h
    rw [ih (runPres d pl rT rTe rV m k h pres).1 (by omega) (by omega) (by omega)]
    simp only [ppres rT hT, ppres rTe hTe, ppres rV hV]
    rw [runPres_rows d pl rT rTe rV m k pres h hT hTe hV]

theorem runModels_rows (d : Row → Row → ℚ)
    (pl : String → ℕ → Mat → Mat → List ℕ) (rT rTe rV : ℕ)
    (clusters : List ℕ) (pres : List Preproc) :
    ∀ (ms : List String) (h : Heap),
    rT < h.length → rTe < h.length → rV < h.length →
    (runModels d pl rT rTe rV clusters pres h ms).2 =
      concatMap (fun m => concatMap (fun k => concatMap (fun p =>
        cellRows d pl m k p (heapGet h rT) (heapGet h rTe) (heapGet h rV))
          pres) clusters) ms := by
  intro ms
  induction ms with
  | nil => intro h _ _ _; rfl
  | cons m ms ih =>
    intro h hT hTe hV
    simp only [runModels, concatMap]
    obtain ⟨clen, cpres⟩ :=
      runClusters_preserves d pl rT rTe rV m pres clusters h
    rw [ih (runClusters d pl rT rTe rV m pres h clusters).1
      (by omega) (by omega) (by omega)]
    simp only [cpres rT hT, cpres rTe hTe, cpres rV hV]
    rw [runClusters_rows d pl rT rTe rV m pres clusters h hT hTe hV]

/-- C3: `run_all_experiments` never mutates the caller's cells: every
heap cell that existed before the call — in particular the three input
dataframes — holds its original value after the call, and the rows of
every grid cell are computed from the original, unmutated partition
values, so no `pred` column from one configuration is visible to the
next. -/
theorem run_all_experiments_preserves_inputs (d : Row → Row → ℚ)
    (pl : String → ℕ → Mat → Mat → List ℕ) (h : Heap) (rT rTe rV : ℕ)
    (models : List String) (clusters : List ℕ) (pres : List Preproc)
    (hT : rT < h.length) (hTe : rTe < h.length) (hV : rV < h.length) :
    (∀ i < h.length,
      heapGet ((run_all_experiments d pl h rT rTe rV models clusters pres).1)
        i = heapGet h i)
    ∧ (runModels d pl rT rTe rV clusters pres h models).2 =
        concatMap (fun m => concatMap (fun k => concatMap (fun p =>
          cellRows d pl m k p (heapGet h rT) (heapGet h rTe) (heapGet h rV))
            pres) clusters) models := by
  refine ⟨fun i hi => ?_,
    runModels_rows d pl rT rTe rV clusters pres models h hT hTe hV⟩
  exact (runModels_preserves d pl rT rTe rV clusters pres models h).2 i hi

/-- Witness for C3 at a concrete three-cell heap. -/
theorem run_all_experiments_preserves_inputs_witness :
    heapGet ((run_all_experiments sqEuclid (fun _ _ _ X => X.map (fun _ => 0))
        [⟨["x"], [[0], [1]]⟩, ⟨["x"], [[2], [3]]⟩, ⟨["x"], [[4], [5]]⟩]
        0 1 2 ["M"] [2] [none]).1) 0 =
      heapGet [⟨["x"], [[0], [1]]⟩, ⟨["x"], [[2], [3]]⟩, ⟨["x"], [[4], [5]]⟩] 0 :=
  (run_all_experiments_preserves_inputs sqEuclid
      (fun _ _ _ X => X.map (fun _ => 0))
      [⟨["x"], [[0], [1]]⟩, ⟨["x"], [[2], [3]]⟩, ⟨["x"], [[4], [5]]⟩]
      0 1 2 ["M"] [2] [none]
      (by decide) (by decide) (by decide)).1 0 (by decide)

/-- C4: for non-empty model, cluster-count and preprocessing lists
`run_all_experiments` succeeds and returns exactly
`models × clusters × preprocessing × 3` rows, in deterministic order —
models outermost, then cluster counts, then preprocessing flags, then
the three partitions — each row tagged with dataset name, model name,
cluster count and preprocessing name. -/
theorem run_all_experiments_grid_rows (d : Row → Row → ℚ)
    (pl : String → ℕ → Mat → Mat → List ℕ) (h : Heap) (rT rTe rV : ℕ)
    (models : List String) (clusters : List ℕ) (pres : List Preproc)
    (hT : rT < h.length) (hTe : rTe < h.length) (hV : rV < h.length)
    (hm : models ≠ []) (hc : clusters ≠ []) (hp : pres ≠ []) :
    ∃ rows,
      (run_all_experiments d pl h rT rTe rV models clusters pres).2 =
        .ok rows
      ∧ rows = concatMap (fun m => concatMap (fun k => concatMap (fun p =>
          cellRows d pl m k p (heapGet h rT) (heapGet h rTe) (heapGet h rV))
            pres) clusters) models
      ∧ rows.length = models.length * clusters.length * pres.length * 3
      ∧ rows.map tagOf = concatMap (fun m => concatMap (fun k =>
          concatMap (fun p =>
            [("train", m, k, preName p), ("test", m, k, preName p),
             ("validation", m, k, preName p)]) pres) clusters) models := by
  have hrows := runModels_rows d pl rT rTe rV clusters pres models h hT hTe hV
  have hinner : ∀ (m : String) (k : ℕ),
      (concatMap (fun p => cellRows d pl m k p (heapGet h rT) (heapGet h rTe)
        (heapGet h rV)) pres).length = pres.length * 3 :=
    fun m k => concatMap_length_const _ 3 pres (fun p _ => rfl)
  have hmid : ∀ m : String,
      (concatMap (fun k => concatMap (fun p => cellRows d pl m k p
        (heapGet h rT) (heapGet h rTe) (heapGet h rV)) pres)
        clusters).length = clusters.length * (pres.length * 3) :=
    fun m => concatMap_length_const _ (pres.length * 3) clusters
      (fun k _ => hinner m k)
  have hlen : (runModels d pl rT rTe rV clusters pres h models).2.length =
      models.length * clusters.length * pres.length * 3 := by
    rw [hrows, concatMap_length_const _ (clusters.length * (pres.length * 3))
      models (fun m _ => hmid m)]
    ring
  have hpos : 0 < (runModels d pl rT rTe rV clusters pres h models).2.length := by
    rw [hlen]
    have h1 := List.length_pos.mpr hm
    have h2 := List.length_pos.mpr hc
    have h3 := List.length_pos.mpr hp
    positivity
  refine ⟨(runModels d pl rT rTe rV clusters pres h models).2, ?_, hrows, hlen, ?_⟩
  · show (if (runModels d pl rT rTe rV clusters pres h models).2.isEmpty
        then (Except.error PyError.valueError : Except PyError (List ResultRow))
        else .ok (runModels d pl rT rTe rV clusters pres h models).2) = _
    rw [if_neg]
    simp only [List.isEmpty_iff, ← List.length_pos]  
    omega
  · rw [hrows, map_concatMap]
    congr 1
    funext m
    rw [map_concatMap]
    congr 1
    funext k
    rw [map_concatMap]
    congr 1

/-- Witness for C4 with a 1×1×1 grid (three result rows). -/
theorem run_all_experiments_grid_rows_witness :
    ∃ rows,
      (run_all_experiments sqEuclid (fun _ _ _ X => X.map (fun _ => 0))
          [⟨["x"], [[0], [1]]⟩, ⟨["x"], [[2], [3]]⟩, ⟨["x"], [[4], [5]]⟩]
          0 1 2 ["M"] [2] [none]).2 = .ok rows
      ∧ rows.length = 3 := by
  obtain ⟨rows, h1, h2, h3, h4⟩ := run_all_experiments_grid_rows sqEuclid
    (fun _ _ _ X => X.map (fun _ => 0))
    [⟨["x"], [[0], [1]]⟩, ⟨["x"], [[2], [3]]⟩, ⟨["x"], [[4], [5]]⟩]
    0 1 2 ["M"] [2] [none] (by decide) (by decide) (by decide)
    (List.cons_ne_nil _ _) (List.cons_ne_nil _ _) (List.cons_ne_nil _ _)
  exact ⟨rows, h1, by simpa using h3⟩

/-- C7 evidence: the spec requires `cluster_counts=[1]` to be rejected
with `ConfigurationError` before any fit; the code performs no
validation at all — with `clusters = [1]` the grid cell runs to
completion (preprocessing, fit, predict, evaluation) and the call
returns three ordinary result rows carrying the degenerate sentinel
metrics, raising no error of any kind. -/
theorem run_all_experiments_accepts_single_cluster :
    (run_all_experiments sqEuclid (fun _ _ _ X => X.map (fun _ => 0))
        [⟨["x"], [[0], [1]]⟩, ⟨["x"], [[2], [3]]⟩, ⟨["x"], [[4], [5]]⟩]
        0 1 2 ["GMMTrainer"] [1] [none]).2 =
      .ok
        [{ dataset := "train"
           model := "GMMTrainer"
           nClusters := 1
           preprocessing := "None"
           metrics := .dict ⊥ ⊥ },
         { dataset := "test"
           model := "GMMTrainer"
           nClusters := 1
           preprocessing := "None"
           metrics := .dict ⊥ ⊥ },
         { dataset := "validation"
           model := "GMMTrainer"
           nClusters := 1
           preprocessing := "None"
           metrics := .dict ⊥ ⊥ }]
    ∧ ∀ e, (run_all_experiments sqEuclid (fun _ _ _ X => X.map (fun _ => 0))
        [⟨["x"], [[0], [1]]⟩, ⟨["x"], [[2], [3]]⟩, ⟨["x"], [[4], [5]]⟩]
        0 1 2 ["GMMTrainer"] [1] [none]).2 ≠ .error e := by
  have h1 : (run_all_experiments sqEuclid (fun _ _ _ X => X.map (fun _ => 0))
      [⟨["x"], [[0], [1]]⟩, ⟨["x"], [[2], [3]]⟩, ⟨["x"], [[4], [5]]⟩]
      0 1 2 ["GMMTrainer"] [1] [none]).2 =
      .ok
        [{ dataset := "train"
           model := "GMMTrainer"
           nClusters := 1
           preprocessing := "None"
           metrics := .dict ⊥ ⊥ },
         { dataset := "test"
           model := "GMMTrainer"
           nClusters := 1
           preprocessing := "None"
           metrics := .dict ⊥ ⊥ },
         { dataset := "validation"
           model := "GMMTrainer"
           nClusters := 1
           preprocessing := "None"
           metrics := .dict ⊥ ⊥ }] := by rfl
  refine ⟨h1, fun e hcon => ?_⟩
  rw [h1] at hcon
  exact Except.noConfusion hcon

/-- Python `scores["silhouette"]` applied to what `evaluate_clusters` returned:
subscripting the bare float sentinel raises `TypeError`; a dict yields
the value stored under the silhouette key. -/
def getSilhouette : Except PyError PyValue → Except PyError (WithBot ℚ)
  | .error e => .error e
  | .ok (.num _) => .error .typeError
  | .ok (.dict s _) => .ok s

/-- The silhouette score of configuration `p`, as the Python float the
loop compares (`WithBot ℚ` so that the initial `-inf` is `⊥`). -/
def silScoreW {σ : Type} (d : Row → Row → ℚ) (po : σ → Mat → List ℕ)
    (X : Mat) (p : σ) : WithBot ℚ :=
  ((silhouetteScore d X (po p X) : ℚ) : WithBot ℚ)

/-- The `param_search` loop (src/src/models/cluster_search.py) over the
remaining grid with accumulator `(best_params, best_score,
best_labels)`: per configuration, predict labels, score with
`evaluate_clusters`, take `scores["silhouette"]`, and update the
accumulator on a strict improvement (`score > best_score`).  The
`model_cls()/set_params/build/fit/predict` composite of the loop body
is the parameter `po`: params and matrix to labels. -/
def paramSearchGo {σ : Type} (d : Row → Row → ℚ) (po : σ → Mat → List ℕ)
    (X : Mat) : List σ → Option σ → WithBot ℚ → Option (List ℕ) →
    Except PyError (Option σ × WithBot ℚ × Option (List ℕ))
  | [], bp, bs, bl => .ok (bp, bs, bl)
  | p :: ps, bp, bs, bl =>
    match getSilhouette (evaluate_clusters d X (po p X)) with
    | .error e => .error e
    | .ok s =>
      if bs < s then paramSearchGo d po X ps (some p) s (some (po p X))
      else paramSearchGo d po X ps bp bs bl

/-- Embedding of `param_search` (src/src/models/cluster_search.py): best
configuration by silhouette, starting from
`(None, -np.inf, None)`. -/
def param_search {σ : Type} (d : Row → Row → ℚ) (po : σ → Mat → List ℕ)
    (grid : List σ) (X : Mat) :
    Except PyError (Option σ × WithBot ℚ × Option (List ℕ)) :=
  paramSearchGo d po X grid none ⊥ none

/-- C10 counterexample: a one-configuration grid whose model predicts
two distinct labels on a 2-row matrix — the claim's hypothesis holds,
yet `param_search` raises `ValueError` (sklearn's silhouette requires
`n_labels < n_samples`) instead of returning a best triple. -/
theorem param_search_claim_counterexample :
    (([0, 1] : List ℕ).dedup.length = 2)
    ∧ param_search sqEuclid (fun _ _ => ([0, 1] : List ℕ))
        [()] [[0], [1]] = .error .valueError :=
  ⟨by decide, rfl⟩

theorem foldl_max_init_le (l : List (WithBot ℚ)) :
    ∀ bs : WithBot ℚ, bs ≤ l.foldl max bs := by
  induction l with
  | nil => intro bs; exact le_refl _
  | cons x xs ih =>
    intro bs
    exact le_trans (le_max_left bs x) (ih (max bs x))

theorem mem_le_foldl_max (l : List (WithBot ℚ)) :
    ∀ (bs x : WithBot ℚ), x ∈ l → x ≤ l.foldl max bs := by
  induction l with
  | nil => intro bs x hx; cases hx
  | cons a as ih =>
    intro bs x hx
    cases hx with
    | head => exact le_trans (le_max_right bs a) (foldl_max_init_le as _)
    | tail _ hmem => exact ih (max bs a) x hmem

theorem foldl_max_of_all_le (l : List (WithBot ℚ)) :
    ∀ bs : WithBot ℚ, (∀ x ∈ l, x ≤ bs) → l.foldl max bs = bs := by
  induction l with
  | nil => intro bs _; rfl
  | cons a as ih =>
    intro bs hall
    have ha : a ≤ bs := hall a (.head _)
    simp only [List.foldl_cons, max_eq_left ha]
    exact ih bs (fun x hx => hall x (.tail _ hx))

theorem getSilhouette_evaluate {α : Type} [DecidableEq α]
    (d : Row → Row → ℚ) (X : Mat) (labels : List α)
    (h2 : 2 ≤ labels.dedup.length) (hlt : labels.dedup.length < X.length) :
    getSilhouette (evaluate_clusters d X labels) =
      .ok ((silhouetteScore d X labels : ℚ) : WithBot ℚ) := by
  have h1 : ¬ labels.dedup.length ≤ 1 := by omega
  simp [evaluate_clusters, h1, hlt, getSilhouette]

theorem paramSearchGo_spec {σ : Type} (d : Row → Row → ℚ)
    (po : σ → Mat → List ℕ) (X : Mat) :
    ∀ (l : List σ) (bp : Option σ) (bs : WithBot ℚ) (bl : Option (List ℕ)),
    (∀ p ∈ l, 2 ≤ (po p X).dedup.length ∧ (po p X).dedup.length < X.length) →
    ((∀ p ∈ l, silScoreW d po X p ≤ bs) →
        paramSearchGo d po X l bp bs bl = .ok (bp, bs, bl))
    ∧ (∀ M, M = (l.map (silScoreW d po X)).foldl max bs → bs < M →
        ∃ pbest,
          l.find? (fun p => decide (silScoreW d po X p = M)) = some pbest
          ∧ paramSearchGo d po X l bp bs bl =
              .ok (some pbest, M, some (po pbest X))) := by
  intro l
  induction l with
  | nil =>
    intro bp bs bl hv
    refine ⟨fun _ => rfl, fun M hM hlt => absurd hlt ?_⟩
    rw [hM]
    exact lt_irrefl bs
  | cons p ps ih =>
    intro bp bs bl hv
    obtain ⟨hp2, hplt⟩ := hv p (.head _)
    have hvps : ∀ q ∈ ps, 2 ≤ (po q X).dedup.length ∧
        (po q X).dedup.length < X.length := fun q hq => hv q (.tail _ hq)
    have heval := getSilhouette_evaluate d X (po p X) hp2 hplt
    have hstep : ∀ (bp' : Option σ) (bs' : WithBot ℚ) (bl' : Option (List ℕ)),
        paramSearchGo d po X (p :: ps) bp' bs' bl' =
          if bs' < silScoreW d po X p then
            paramSearchGo d po X ps (some p) (silScoreW d po X p)
              (some (po p X))
          else paramSearchGo d po X ps bp' bs' bl' := by
      intro bp' bs' bl'
      simp only [paramSearchGo, heval]
      rfl
    constructor
    · intro hall
      have hple : silScoreW d po X p ≤ bs := hall p (.head _)
      rw [hstep, if_neg (not_lt.mpr hple)]
      exact (ih bp bs bl hvps).1 (fun q hq => hall q (.tail _ hq))
    · intro M hM hlt
      simp only [List.map_cons, List.foldl_cons] at hM
      by_cases hbp : bs < silScoreW d po X p
      · rw [hstep, if_pos hbp]
        have hmax : max bs (silScoreW d po X p) = silScoreW d po X p :=
          max_eq_right (le_of_lt hbp)
        rw [hmax] at hM
        by_cases hall : ∀ q ∈ ps, silScoreW d po X q ≤ silScoreW d po X p
        · have hMeq : M = silScoreW d po X p := by
            rw [hM]
            exact foldl_max_of_all_le _ _ (fun x hx => by
              obtain ⟨q, hq, hqx⟩ := List.mem_map.mp hx
              rw [← hqx]
              exact hall q hq)
          refine ⟨p, ?_, ?_⟩
          · apply List.find?_cons_of_pos
            simp [hMeq]
          · rw [(ih (some p) (silScoreW d po X p) (some (po p X)) hvps).1 hall,
              hMeq]
        · obtain ⟨q, hq, hqgt⟩ : ∃ q ∈ ps,
              silScoreW d po X p < silScoreW d po X q := by
            by_contra hcon
            push_neg at hcon
            exact hall hcon
          have hposM : silScoreW d po X p <
              (ps.map (silScoreW d po X)).foldl max (silScoreW d po X p) :=
            lt_of_lt_of_le hqgt
              (mem_le_foldl_max _ _ _ (List.mem_map_of_mem _ hq))
          obtain ⟨pb, hfind, hgo⟩ := (ih (some p) (silScoreW d po X p)
            (some (po p X)) hvps).2 M hM (hM ▸ hposM)
          refine ⟨pb, ?_, hgo⟩
          have hne : silScoreW d po X p ≠ M := ne_of_lt (hM ▸ hposM)
          rw [List.find?_cons_of_neg _ (by simp [hne])]
          exact hfind
      · rw [hstep, if_neg hbp]
        have hmax : max bs (silScoreW d po X p) = bs :=
          max_eq_left (not_lt.mp hbp)
        rw [hmax] at hM
        obtain ⟨pb, hfind, hgo⟩ := (ih bp bs bl hvps).2 M hM hlt
        refine ⟨pb, ?_, hgo⟩
        have hne : silScoreW d po X p ≠ M :=
          ne_of_lt (lt_of_le_of_lt (not_lt.mp hbp) hlt)
        rw [List.find?_cons_of_neg _ (by simp [hne])]
        exact hfind

/-- C10 amended: when every configuration in the grid predicts at least
two and fewer than `len(X)` distinct labels, `param_search` returns:
for the empty grid, `(None, -inf, None)` — for every model behaviour
`po`, so no model is consulted — and for a non-empty grid the maximal
silhouette score over the grid together with the earliest configuration
attaining it and that configuration's labels. -/
theorem param_search_best_silhouette {σ : Type} (d : Row → Row → ℚ)
    (po : σ → Mat → List ℕ) (grid : List σ) (X : Mat)
    (hval : ∀ p ∈ grid, 2 ≤ (po p X).dedup.length ∧
      (po p X).dedup.length < X.length) :
    (grid = [] → param_search d po grid X = .ok (none, ⊥, none))
    ∧ (grid ≠ [] →
        ∃ pbest,
          grid.find? (fun p => decide (silScoreW d po X p =
              (grid.map (silScoreW d po X)).foldl max ⊥)) = some pbest
          ∧ (∀ p ∈ grid, silScoreW d po X p ≤
              (grid.map (silScoreW d po X)).foldl max ⊥)
          ∧ param_search d po grid X =
              .ok (some pbest,
                (grid.map (silScoreW d po X)).foldl max ⊥,
                some (po pbest X))) := by
  constructor
  · intro hg
    subst hg
    rfl
  · intro hg
    obtain ⟨x, hxmem⟩ := List.exists_mem_of_ne_nil grid hg
    have hx : (⊥ : WithBot ℚ) < silScoreW d po X x := WithBot.bot_lt_coe _
    have hbot : (⊥ : WithBot ℚ) < (grid.map (silScoreW d po X)).foldl max ⊥ :=
      lt_of_lt_of_le hx
        (mem_le_foldl_max _ ⊥ _ (List.mem_map_of_mem _ hxmem))
    obtain ⟨pb, hfind, hgo⟩ :=
      (paramSearchGo_spec d po X grid none ⊥ none hval).2 _ rfl hbot
    exact ⟨pb, hfind,
      fun p hp => mem_le_foldl_max _ ⊥ _ (List.mem_map_of_mem _ hp), hgo⟩

/-- Witness for C10's amended theorem: a two-configuration grid on
three rows, both configurations valid. -/
theorem param_search_best_silhouette_witness :
    ∃ pbest,
      ([0, 1] : List ℕ).find? (fun p => decide (silScoreW sqEuclid
          (fun p _ => if p = 0 then ([0, 0, 1] : List ℕ) else [0, 1, 1])
          [[0], [1], [10]] p =
        (([0, 1] : List ℕ).map (silScoreW sqEuclid
          (fun p _ => if p = 0 then ([0, 0, 1] : List ℕ) else [0, 1, 1])
          [[0], [1], [10]])).foldl max ⊥)) = some pbest
      ∧ (∀ p ∈ ([0, 1] : List ℕ), silScoreW sqEuclid
          (fun p _ => if p = 0 then ([0, 0, 1] : List ℕ) else [0, 1, 1])
          [[0], [1], [10]] p ≤
        (([0, 1] : List ℕ).map (silScoreW sqEuclid
          (fun p _ => if p = 0 then ([0, 0, 1] : List ℕ) else [0, 1, 1])
          [[0], [1], [10]])).foldl max ⊥)
      ∧ param_search sqEuclid
          (fun p _ => if p = 0 then ([0, 0, 1] : List ℕ) else [0, 1, 1])
          [0, 1] [[0], [1], [10]] =
        .ok (some pbest,
          (([0, 1] : List ℕ).map (silScoreW sqEuclid
            (fun p _ => if p = 0 then ([0, 0, 1] : List ℕ) else [0, 1, 1])
            [[0], [1], [10]])).foldl max ⊥,
          some ((fun p _ => if p = 0 then ([0, 0, 1] : List ℕ) else [0, 1, 1])
            pbest [[0], [1], [10]])) :=
  (param_search_best_silhouette sqEuclid
    (fun p _ => if p = 0 then ([0, 0, 1] : List ℕ) else [0, 1, 1])
    [0, 1] [[0], [1], [10]] (by decide)).2 (List.cons_ne_nil _ _)
